import Mathlib

/-!
Verification development for the django-recurrence repository.

The repository's source (src/recurrence/forms.py) contains the form-field
adapter `RecurrenceField` whose `clean` method validates a parsed
`recurrence.base.Recurrence` object against the policy set up in
`RecurrenceField.__init__`.  This file embeds that data model and the
`clean` algorithm, and (for the codec, which is not part of src/) a
spec-modelled serializer/parser, and proves the claimed properties.
-/

namespace Recur

/-- The seven frequency constants (recurrence.YEARLY .. recurrence.SECONDLY). -/
inductive Freq
  | YEARLY | MONTHLY | WEEKLY | DAILY | HOURLY | MINUTELY | SECONDLY
deriving DecidableEq

/-- A calendar timestamp; the codec treats it as an atomic token
(date plus time-of-day fields). -/
structure Timestamp where
  year : Nat
  month : Nat
  day : Nat
  hour : Nat
  minute : Nat
  second : Nat
deriving DecidableEq

/-- Two-letter weekday abbreviations used by BYDAY tokens. -/
inductive Day
  | MO | TU | WE | TH | FR | SA | SU
deriving DecidableEq

/-- A BYDAY token: a weekday, optionally prefixed with a signed ordinal
(e.g. `3FR` is the third Friday). -/
structure WeekdayTok where
  ordinal : Option Int := none
  day : Day
deriving DecidableEq

/-- A single recurrence rule (frequency, interval, bounds, by-part filters),
following the data model of spec section 3. -/
structure Rule where
  freq : Freq
  interval : Nat := 1
  count : Option Nat := none
  up_to : Option Timestamp := none
  bymonth : Option (List Int) := none
  bymonthday : Option (List Int) := none
  byday : Option (List WeekdayTok) := none
  bysetpos : Option (List Int) := none
deriving DecidableEq

/-- The Recurrence model: anchors plus the four collections
(`recurrence.base.Recurrence`). -/
structure Recurrence where
  dtstart : Option Timestamp := none
  dtend : Option Timestamp := none
  rrules : List Rule := []
  exrules : List Rule := []
  rdates : List Timestamp := []
  exdates : List Timestamp := []
deriving DecidableEq

/-- Render a natural number in decimal (the `str(limit)` part of Python's
percent-formatting); fuel-structured so the kernel can evaluate it. -/
def natDigitsAux : Nat → Nat → List Char → List Char
  | 0, _, acc => acc
  | fuel + 1, n, acc =>
    if n < 10 then Nat.digitChar n :: acc
    else natDigitsAux fuel (n / 10) (Nat.digitChar (n % 10) :: acc)

/-- Decimal rendering of a natural number. -/
def natToString (n : Nat) : String :=
  String.mk (natDigitsAux (n + 1) n [])

/-- Substitute every occurrence of the placeholder `\x25(limit)s` in a list of
characters by the replacement string, as Python's `template \x25 mapping` does
for the templates used in forms.py. -/
def substPercentAux : List Char → String → List Char
  | [], _ => []
  | '%' :: '(' :: 'l' :: 'i' :: 'm' :: 'i' :: 't' :: ')' :: 's' :: rest, rep =>
      rep.data ++ substPercentAux rest rep
  | c :: rest, rep => c :: substPercentAux rest rep

/-- Python's `template \x25 \x7b'limit': limit\x7d` from the source, specialised to
the placeholder actually present in the default error messages. -/
def substLimit (template : String) (limit : Nat) : String :=
  String.mk (substPercentAux template.data (natToString limit))

/-- The outcome of `RecurrenceField.clean` when it raises: either a
`forms.ValidationError` carrying a message, or a Python `KeyError` from a
failed `self.error_messages[key]` dictionary lookup. -/
inductive CleanError
  | validationError (message : String)
  | keyError (key : String)
deriving DecidableEq

/-- The dictionary `RecurrenceField.default_error_messages` from forms.py, in
source order.
Note the first key is spelled `invalid_freqency` in the source. -/
def default_error_messages : List (String × String) :=
  [("invalid_freqency", "Invalid frequency."),
   ("max_rrules_exceeded", "Max rules exceeded. The limit is %(limit)s"),
   ("max_exrules_exceeded", "Max exclusion rules exceeded. The limit is %(limit)s"),
   ("max_rdates_exceeded", "Max dates exceeded. The limit is %(limit)s"),
   ("max_exdates_exceeded", "Max exclusion dates exceeded. The limit is %(limit)s")]

/-- The default `frequencies` tuple from `RecurrenceField.__init__`. -/
def default_frequencies : List Freq :=
  [Freq.YEARLY, Freq.MONTHLY, Freq.WEEKLY, Freq.DAILY,
   Freq.HOURLY, Freq.MINUTELY, Freq.SECONDLY]

/-- The state of a `RecurrenceField` after `__init__`: the policy parameters
plus any caller-supplied `error_messages` overrides (Django merges those over
the class's `default_error_messages`, overrides shadowing defaults). -/
structure RecurrenceField where
  frequencies : List Freq := default_frequencies
  accept_dtstart : Bool := true
  accept_dtend : Bool := true
  max_rrules : Option Nat := none
  max_exrules : Option Nat := none
  max_rdates : Option Nat := none
  max_exdates : Option Nat := none
  error_messages_extra : List (String × String) := []
deriving DecidableEq

namespace RecurrenceField

/-- The merged `self.error_messages` dictionary: caller-supplied overrides over the
defaults; lookup finds the override first. -/
def error_messages (f : RecurrenceField) : List (String × String) :=
  f.error_messages_extra ++ default_error_messages

/-- The value `self.error_messages[key] \x25 \x7b'limit': limit\x7d` wrapped in
`forms.ValidationError`; a missing key is a Python `KeyError`. -/
def raiseLimit (f : RecurrenceField) (key : String) (limit : Nat) : CleanError :=
  match (f.error_messages).lookup key with
  | some template => CleanError.validationError (substLimit template limit)
  | none => CleanError.keyError key

/-- The value `forms.ValidationError(self.error_messages['invalid_frequency'])`: the
error the disallowed-frequency branch raises; a missing key is a `KeyError`. -/
def raiseFreq (f : RecurrenceField) : CleanError :=
  match (f.error_messages).lookup "invalid_frequency" with
  | some template => CleanError.validationError template
  | none => CleanError.keyError "invalid_frequency"

/-- One `if self.max_X is not None: if len(xs) > self.max_X: raise ...`
block from `clean` (forms.py lines 138-157). -/
def checkMax (f : RecurrenceField) (key : String) (maxVal : Option Nat)
    (size : Nat) : Except CleanError Unit :=
  match maxVal with
  | none => Except.ok ()
  | some limit =>
      if limit < size then Except.error (f.raiseLimit key limit)
      else Except.ok ()

/-- One `for rule in rules: if rule.freq not in self.frequencies: raise ...`
loop from `clean` (forms.py lines 159-166). -/
def checkFrequencies (f : RecurrenceField) : List Rule → Except CleanError Unit
  | [] => Except.ok ()
  | r :: rest =>
      if f.frequencies.contains r.freq then f.checkFrequencies rest
      else Except.error f.raiseFreq

/-- The method `RecurrenceField.clean` (forms.py lines 125-168), starting from the
already-deserialized `Recurrence` object (`recurrence.deserialize` belongs to
the codec, which is not in src/; the claims quantify over parsed models). -/
def clean (f : RecurrenceField) (m : Recurrence) : Except CleanError Recurrence :=
  let m := if f.accept_dtstart then m else { m with dtstart := none }
  let m := if f.accept_dtend then m else { m with dtend := none }
  match f.checkMax "max_rrules_exceeded" f.max_rrules m.rrules.length with
  | Except.error e => Except.error e
  | Except.ok () =>
  match f.checkMax "max_exrules_exceeded" f.max_exrules m.exrules.length with
  | Except.error e => Except.error e
  | Except.ok () =>
  match f.checkMax "max_rdates_exceeded" f.max_rdates m.rdates.length with
  | Except.error e => Except.error e
  | Except.ok () =>
  match f.checkMax "max_exdates_exceeded" f.max_exdates m.exdates.length with
  | Except.error e => Except.error e
  | Except.ok () =>
  match f.checkFrequencies m.rrules with
  | Except.error e => Except.error e
  | Except.ok () =>
  match f.checkFrequencies m.exrules with
  | Except.error e => Except.error e
  | Except.ok () => Except.ok m

end RecurrenceField

/-- The two anchor clears of `clean` (forms.py lines 133-136), as a function
on models. -/
def applyClears (f : RecurrenceField) (m : Recurrence) : Recurrence :=
  let m := if f.accept_dtstart then m else { m with dtstart := none }
  if f.accept_dtend then m else { m with dtend := none }

/-- Names for the four collections, in the order `clean` checks them. -/
inductive Collection
  | rrules | exrules | rdates | exdates
deriving DecidableEq, Fintype

/-- The policy max for a collection. -/
def maxOf (f : RecurrenceField) : Collection → Option Nat
  | Collection.rrules => f.max_rrules
  | Collection.exrules => f.max_exrules
  | Collection.rdates => f.max_rdates
  | Collection.exdates => f.max_exdates

/-- The size of a collection in a model. -/
def collectionSize (m : Recurrence) : Collection → Nat
  | Collection.rrules => m.rrules.length
  | Collection.exrules => m.exrules.length
  | Collection.rdates => m.rdates.length
  | Collection.exdates => m.exdates.length

/-- The error-message key `clean` uses for a collection's limit error. -/
def limitKey : Collection → String
  | Collection.rrules => "max_rrules_exceeded"
  | Collection.exrules => "max_exrules_exceeded"
  | Collection.rdates => "max_rdates_exceeded"
  | Collection.exdates => "max_exdates_exceeded"

/-- The position of a collection in the fixed check order. -/
def collOrder : Collection → Nat
  | Collection.rrules => 0
  | Collection.exrules => 1
  | Collection.rdates => 2
  | Collection.exdates => 3

/-- The default message template for a collection's limit error. -/
def defaultTemplate : Collection → String
  | Collection.rrules => "Max rules exceeded. The limit is %(limit)s"
  | Collection.exrules => "Max exclusion rules exceeded. The limit is %(limit)s"
  | Collection.rdates => "Max dates exceeded. The limit is %(limit)s"
  | Collection.exdates => "Max exclusion dates exceeded. The limit is %(limit)s"

/-- The concrete error value `clean` raises for an exceeded limit under the
default messages: this is the code-level rendering of the spec's
`LimitExceeded\x7bcollection, limit\x7d`. -/
def defaultLimitError (c : Collection) (l : Nat) : CleanError :=
  CleanError.validationError (substLimit (defaultTemplate c) l)

/-- Whether a collection's limit check is violated: its max is set and the
collection's size strictly exceeds it. -/
def limitViolated (f : RecurrenceField) (m : Recurrence) (c : Collection) : Bool :=
  match maxOf f c with
  | none => false
  | some l => decide (l < collectionSize m c)

deriving instance DecidableEq for Except

/-- The error an individual limit check raises, as an `Option`:
`some` exactly when the max is set and exceeded. -/
def limitOpt (f : RecurrenceField) (key : String) (maxVal : Option Nat)
    (size : Nat) : Option CleanError :=
  match maxVal with
  | none => none
  | some l => if l < size then some (f.raiseLimit key l) else none

/-- The list of errors of the violated checks of `clean`, in the fixed order
the source performs them: the four limit checks (rrules, exrules, rdates,
exdates), then one entry per disallowed-frequency rule in `rrules` followed
by `exrules`. -/
def violationsList (f : RecurrenceField) (m : Recurrence) : List CleanError :=
  (limitOpt f "max_rrules_exceeded" f.max_rrules m.rrules.length).toList
  ++ ((limitOpt f "max_exrules_exceeded" f.max_exrules m.exrules.length).toList
  ++ ((limitOpt f "max_rdates_exceeded" f.max_rdates m.rdates.length).toList
  ++ ((limitOpt f "max_exdates_exceeded" f.max_exdates m.exdates.length).toList
  ++ ((m.rrules.filter (fun r => !f.frequencies.contains r.freq)).map (fun _ : Rule => f.raiseFreq)
  ++ (m.exrules.filter (fun r => !f.frequencies.contains r.freq)).map (fun _ : Rule => f.raiseFreq)))))

/-- The (zero- or one-element) list of errors contributed by a collection's
limit check. -/
def limitChunk (f : RecurrenceField) (m : Recurrence) (c : Collection) : List CleanError :=
  (limitOpt f (limitKey c) (maxOf f c) (collectionSize m c)).toList

/-- The errors contributed by the frequency checks over a rule list. -/
def freqChunk (f : RecurrenceField) (rs : List Rule) : List CleanError :=
  (rs.filter (fun r => !f.frequencies.contains r.freq)).map (fun _ : Rule => f.raiseFreq)

/-- Modelled from the spec: the Codec (recurrence.serialize / deserialize)
is not part of src/ (forms.py only calls it), so the serialization grammar
of spec sections 4.1 and 6 is modelled here at the directive / key-value
token level: a rule line's body is its list of key\x3dvalue pairs
(tokenization of the raw characters is abstracted).  These are the keys
a rule line may carry; an unrecognized key is kept as `UNKNOWN`. -/
inductive RuleKey
  | FREQ | INTERVAL | COUNT | UNTIL | BYMONTH | BYMONTHDAY | BYDAY | BYSETPOS
  | UNKNOWN (s : String)
deriving DecidableEq

/-- Modelled from the spec: the typed value tokens appearing on the right of
a key\x3dvalue pair in a rule line (frequency token, integer, timestamp,
comma-separated integers, comma-separated weekday tokens). -/
inductive RVal
  | vfreq (x : Freq)
  | vnat (n : Nat)
  | vtime (t : Timestamp)
  | vints (l : List Int)
  | vdays (l : List WeekdayTok)
deriving DecidableEq

/-- Modelled from the spec: one directive line of the line-oriented text
grammar (spec section 6); an unknown directive keyword is kept as
`UNKNOWN`. -/
inductive Line
  | DTSTART (t : Timestamp)
  | DTEND (t : Timestamp)
  | RRULE (body : List (RuleKey × RVal))
  | EXRULE (body : List (RuleKey × RVal))
  | RDATE (ts : List Timestamp)
  | EXDATE (ts : List Timestamp)
  | UNKNOWN (s : String)
deriving DecidableEq

/-- Modelled from the spec: the structured parse errors of spec section 4.1
(unknown directive keyword, unknown key inside a rule, wrongly-typed value,
missing frequency, a rule declaring both count and until, an empty declared
filter). -/
inductive FormatError
  | unknownDirective (s : String)
  | unknownKey (s : String)
  | typeMismatch (k : RuleKey)
  | missingFreq
  | bothCountAndUntil
  | emptyFilter (k : RuleKey)
deriving DecidableEq

/-- Accumulator for parsing a rule line's key-value pairs. -/
structure PartialRule where
  freq : Option Freq := none
  interval : Option Nat := none
  count : Option Nat := none
  up_to : Option Timestamp := none
  bymonth : Option (List Int) := none
  bymonthday : Option (List Int) := none
  byday : Option (List WeekdayTok) := none
  bysetpos : Option (List Int) := none
deriving DecidableEq

/-- Modelled from the spec: process one key\x3dvalue pair of a rule line.
A wrongly-typed value, an unknown key, or an empty declared filter is a
`FormatError`. -/
def ruleStep (p : PartialRule) : RuleKey × RVal → Except FormatError PartialRule
  | (RuleKey.FREQ, RVal.vfreq x) => Except.ok { p with freq := some x }
  | (RuleKey.FREQ, _) => Except.error (FormatError.typeMismatch RuleKey.FREQ)
  | (RuleKey.INTERVAL, RVal.vnat n) => Except.ok { p with interval := some n }
  | (RuleKey.INTERVAL, _) => Except.error (FormatError.typeMismatch RuleKey.INTERVAL)
  | (RuleKey.COUNT, RVal.vnat n) => Except.ok { p with count := some n }
  | (RuleKey.COUNT, _) => Except.error (FormatError.typeMismatch RuleKey.COUNT)
  | (RuleKey.UNTIL, RVal.vtime t) => Except.ok { p with up_to := some t }
  | (RuleKey.UNTIL, _) => Except.error (FormatError.typeMismatch RuleKey.UNTIL)
  | (RuleKey.BYMONTH, RVal.vints l) =>
      if l = [] then Except.error (FormatError.emptyFilter RuleKey.BYMONTH)
      else Except.ok { p with bymonth := some l }
  | (RuleKey.BYMONTH, _) => Except.error (FormatError.typeMismatch RuleKey.BYMONTH)
  | (RuleKey.BYMONTHDAY, RVal.vints l) =>
      if l = [] then Except.error (FormatError.emptyFilter RuleKey.BYMONTHDAY)
      else Except.ok { p with bymonthday := some l }
  | (RuleKey.BYMONTHDAY, _) => Except.error (FormatError.typeMismatch RuleKey.BYMONTHDAY)
  | (RuleKey.BYDAY, RVal.vdays l) =>
      if l = [] then Except.error (FormatError.emptyFilter RuleKey.BYDAY)
      else Except.ok { p with byday := some l }
  | (RuleKey.BYDAY, _) => Except.error (FormatError.typeMismatch RuleKey.BYDAY)
  | (RuleKey.BYSETPOS, RVal.vints l) =>
      if l = [] then Except.error (FormatError.emptyFilter RuleKey.BYSETPOS)
      else Except.ok { p with bysetpos := some l }
  | (RuleKey.BYSETPOS, _) => Except.error (FormatError.typeMismatch RuleKey.BYSETPOS)
  | (RuleKey.UNKNOWN s, _) => Except.error (FormatError.unknownKey s)

/-- Fold `ruleStep` over a rule line's pairs, stopping at the first error. -/
def parsePairs (p : PartialRule) : List (RuleKey × RVal) → Except FormatError PartialRule
  | [] => Except.ok p
  | kv :: rest =>
      match ruleStep p kv with
      | Except.ok p' => parsePairs p' rest
      | Except.error e => Except.error e

/-- Modelled from the spec: close a parsed rule line — frequency is
mandatory, `count` and `until` are mutually exclusive, `interval` defaults
to 1. -/
def finishRule (p : PartialRule) : Except FormatError Rule :=
  match p.freq with
  | none => Except.error FormatError.missingFreq
  | some x =>
      match p.count, p.up_to with
      | some _, some _ => Except.error FormatError.bothCountAndUntil
      | c, u =>
          Except.ok { freq := x, interval := p.interval.getD 1, count := c,
                      up_to := u, bymonth := p.bymonth,
                      bymonthday := p.bymonthday, byday := p.byday,
                      bysetpos := p.bysetpos }

/-- Modelled from the spec: parse one rule line's body. -/
def parseRule (body : List (RuleKey × RVal)) : Except FormatError Rule :=
  match parsePairs {} body with
  | Except.ok p => finishRule p
  | Except.error e => Except.error e

/-- Emit an optional key-value pair. -/
def optPair {α : Type} (k : RuleKey) (f : α → RVal) : Option α → List (RuleKey × RVal)
  | none => []
  | some x => [(k, f x)]

/-- Modelled from the spec: serialize one rule in the fixed canonical key
order FREQ, INTERVAL, COUNT, UNTIL, BYMONTH, BYMONTHDAY, BYDAY, BYSETPOS;
the default interval 1 is omitted. -/
def serializeRule (r : Rule) : List (RuleKey × RVal) :=
  (RuleKey.FREQ, RVal.vfreq r.freq)
  :: ((if r.interval = 1 then [] else [(RuleKey.INTERVAL, RVal.vnat r.interval)])
  ++ (optPair RuleKey.COUNT RVal.vnat r.count
  ++ (optPair RuleKey.UNTIL RVal.vtime r.up_to
  ++ (optPair RuleKey.BYMONTH RVal.vints r.bymonth
  ++ (optPair RuleKey.BYMONTHDAY RVal.vints r.bymonthday
  ++ (optPair RuleKey.BYDAY RVal.vdays r.byday
  ++ optPair RuleKey.BYSETPOS RVal.vints r.bysetpos))))))

/-- Emit an optional anchor line. -/
def optLine (mk : Timestamp → Line) : Option Timestamp → List Line
  | none => []
  | some t => [mk t]

/-- Modelled from the spec: serialize a model, one directive per line, in
the fixed order DTSTART, DTEND, RRULE*, EXRULE*, RDATE, EXDATE; one line per
rule, the date collections on one line each and omitted when empty. -/
def serialize (m : Recurrence) : List Line :=
  optLine Line.DTSTART m.dtstart
  ++ (optLine Line.DTEND m.dtend
  ++ (m.rrules.map (fun r => Line.RRULE (serializeRule r))
  ++ (m.exrules.map (fun r => Line.EXRULE (serializeRule r))
  ++ ((if m.rdates = [] then [] else [Line.RDATE m.rdates])
  ++ (if m.exdates = [] then [] else [Line.EXDATE m.exdates])))))

/-- Modelled from the spec: fold the directive lines into a model — rule
lines are appended in file order, multiple RDATE/EXDATE lines are merged,
an unknown directive is a `FormatError`. -/
def parseLines (acc : Recurrence) : List Line → Except FormatError Recurrence
  | [] => Except.ok acc
  | Line.DTSTART t :: rest => parseLines { acc with dtstart := some t } rest
  | Line.DTEND t :: rest => parseLines { acc with dtend := some t } rest
  | Line.RRULE body :: rest =>
      match parseRule body with
      | Except.ok r => parseLines { acc with rrules := acc.rrules ++ [r] } rest
      | Except.error e => Except.error e
  | Line.EXRULE body :: rest =>
      match parseRule body with
      | Except.ok r => parseLines { acc with exrules := acc.exrules ++ [r] } rest
      | Except.error e => Except.error e
  | Line.RDATE ts :: rest => parseLines { acc with rdates := acc.rdates ++ ts } rest
  | Line.EXDATE ts :: rest => parseLines { acc with exdates := acc.exdates ++ ts } rest
  | Line.UNKNOWN s :: _ => Except.error (FormatError.unknownDirective s)

/-- Modelled from the spec: parse a directive-line list into a model. -/
def parse (ls : List Line) : Except FormatError Recurrence :=
  parseLines {} ls

/-- A declared by-part filter must be a non-empty set (spec section 3). -/
def filterOk {α : Type} [DecidableEq α] : Option (List α) → Bool
  | none => true
  | some l => decide (l ≠ [])

/-- Structural validity of a rule (spec section 3): interval at least 1,
`count` and `until` mutually exclusive, declared filters non-empty. -/
def RuleValid (r : Rule) : Bool :=
  decide (1 ≤ r.interval) && (!(r.count.isSome && r.up_to.isSome)
  && (filterOk r.bymonth && (filterOk r.bymonthday
  && (filterOk r.byday && filterOk r.bysetpos))))

/-- Structural validity of a model: every rule is valid. -/
def ModelValid (m : Recurrence) : Bool :=
  (m.rrules ++ m.exrules).all RuleValid

lemma checkMax_eq (f : RecurrenceField) (key : String) (maxVal : Option Nat)
    (size : Nat) :
    f.checkMax key maxVal size =
      match limitOpt f key maxVal size with
      | some e => Except.error e
      | none => Except.ok () := by
  cases maxVal with
  | none => rfl
  | some l =>
      by_cases h : l < size <;> simp [RecurrenceField.checkMax, limitOpt, h]

lemma checkFrequencies_eq (f : RecurrenceField) (rs : List Rule) :
    f.checkFrequencies rs =
      match (rs.filter (fun r => !f.frequencies.contains r.freq)).map
          (fun _ : Rule => f.raiseFreq) with
      | [] => Except.ok ()
      | e :: _ => Except.error e := by
  induction rs with
  | nil => rfl
  | cons r rest ih =>
      show (if f.frequencies.contains r.freq then f.checkFrequencies rest
        else Except.error f.raiseFreq) = _
      rw [List.filter_cons]
      by_cases h : f.frequencies.contains r.freq
      · rw [if_pos h, ih]
        have hb : (!f.frequencies.contains r.freq) = false := by rw [h]; rfl
        rw [hb]
        simp only [Bool.false_eq_true, if_false]
      · rw [if_neg h]
        have hb0 : f.frequencies.contains r.freq = false := by
          cases hc : f.frequencies.contains r.freq
          · rfl
          · exact absurd hc h
        have hb : (!f.frequencies.contains r.freq) = true := by rw [hb0]; rfl
        rw [hb]
        simp only [if_true, List.map_cons]

lemma freqTail2 (f : RecurrenceField) (rs1 rs2 : List Rule) (d : Recurrence) :
    (match f.checkFrequencies rs1 with
     | Except.error e => Except.error e
     | Except.ok _ =>
       match f.checkFrequencies rs2 with
       | Except.error e => Except.error e
       | Except.ok _ => Except.ok d)
    = match (((rs1.filter (fun r => !f.frequencies.contains r.freq)).map
            (fun _ : Rule => f.raiseFreq))
          ++ ((rs2.filter (fun r => !f.frequencies.contains r.freq)).map
            (fun _ : Rule => f.raiseFreq))).head? with
      | some e => Except.error e
      | none => Except.ok d := by
  rw [checkFrequencies_eq f rs1, checkFrequencies_eq f rs2]
  cases h1 : (rs1.filter (fun r => !f.frequencies.contains r.freq)).map
      (fun _ : Rule => f.raiseFreq) <;>
    cases h2 : (rs2.filter (fun r => !f.frequencies.contains r.freq)).map
        (fun _ : Rule => f.raiseFreq) <;>
      simp

lemma chainStep (e? : Option CleanError) (L : List CleanError) (d : Recurrence)
    (k : Except CleanError Recurrence)
    (hk : k = match L.head? with
      | some e => Except.error e
      | none => Except.ok d) :
    (match (match e? with
            | some e => Except.error e
            | none => Except.ok ()) with
     | Except.error e => Except.error e
     | Except.ok _ => k)
    = match (e?.toList ++ L).head? with
      | some e => Except.error e
      | none => Except.ok d := by
  cases e? <;> simp [hk, Option.toList]

lemma clean_chain (f : RecurrenceField) (m' : Recurrence) :
    (match f.checkMax "max_rrules_exceeded" f.max_rrules m'.rrules.length with
     | Except.error e => Except.error e
     | Except.ok _ =>
       match f.checkMax "max_exrules_exceeded" f.max_exrules m'.exrules.length with
       | Except.error e => Except.error e
       | Except.ok _ =>
         match f.checkMax "max_rdates_exceeded" f.max_rdates m'.rdates.length with
         | Except.error e => Except.error e
         | Except.ok _ =>
           match f.checkMax "max_exdates_exceeded" f.max_exdates m'.exdates.length with
           | Except.error e => Except.error e
           | Except.ok _ =>
             match f.checkFrequencies m'.rrules with
             | Except.error e => Except.error e
             | Except.ok _ =>
               match f.checkFrequencies m'.exrules with
               | Except.error e => Except.error e
               | Except.ok _ => Except.ok m')
    = match (violationsList f m').head? with
      | some e => Except.error e
      | none => Except.ok m' := by
  simp only [checkMax_eq, violationsList]
  exact chainStep _ _ _ _ (chainStep _ _ _ _ (chainStep _ _ _ _
    (chainStep _ _ _ _ (freqTail2 f m'.rrules m'.exrules m'))))

lemma applyClears_rrules (f : RecurrenceField) (m : Recurrence) :
    (applyClears f m).rrules = m.rrules := by
  simp only [applyClears]; split <;> split <;> rfl

lemma applyClears_exrules (f : RecurrenceField) (m : Recurrence) :
    (applyClears f m).exrules = m.exrules := by
  simp only [applyClears]; split <;> split <;> rfl

lemma applyClears_rdates (f : RecurrenceField) (m : Recurrence) :
    (applyClears f m).rdates = m.rdates := by
  simp only [applyClears]; split <;> split <;> rfl

lemma applyClears_exdates (f : RecurrenceField) (m : Recurrence) :
    (applyClears f m).exdates = m.exdates := by
  simp only [applyClears]; split <;> split <;> rfl

lemma violationsList_applyClears (f : RecurrenceField) (m : Recurrence) :
    violationsList f (applyClears f m) = violationsList f m := by
  simp only [violationsList, applyClears_rrules, applyClears_exrules,
    applyClears_rdates, applyClears_exdates]

/-- Master characterization of `clean`: it returns the error of the earliest
violated check in the fixed order, or the model with the two anchor clears
applied when no check is violated. -/
lemma clean_spec (f : RecurrenceField) (m : Recurrence) :
    f.clean m =
      match (violationsList f m).head? with
      | some e => Except.error e
      | none => Except.ok (applyClears f m) := by
  have h := clean_chain f (applyClears f m)
  rw [violationsList_applyClears] at h
  exact h

lemma violationsList_chunks (f : RecurrenceField) (m : Recurrence) :
    violationsList f m =
      limitChunk f m Collection.rrules
      ++ (limitChunk f m Collection.exrules
      ++ (limitChunk f m Collection.rdates
      ++ (limitChunk f m Collection.exdates
      ++ (freqChunk f m.rrules ++ freqChunk f m.exrules)))) := rfl

lemma substLimit_take (c : Collection) (l : Nat) :
    (substLimit (defaultTemplate c) l).data.take 15
      = (defaultTemplate c).data.take 15 := by
  cases c <;> rfl

lemma defaultLimitError_ne (c c' : Collection) (l l' : Nat) (h : c ≠ c') :
    defaultLimitError c l ≠ defaultLimitError c' l' := by
  intro he
  apply h
  have hs : substLimit (defaultTemplate c) l = substLimit (defaultTemplate c') l' := by
    injection he
  have ht := congrArg (fun s : String => s.data.take 15) hs
  simp only [substLimit_take] at ht
  revert ht
  cases c <;> cases c' <;> intro ht <;> first | rfl | exact absurd ht (by decide)

lemma substLimit_ne_invalid (c : Collection) (l : Nat) :
    substLimit (defaultTemplate c) l ≠ "Invalid frequency." := by
  intro he
  have ht := congrArg (fun s : String => s.data.take 15) he
  simp only [substLimit_take] at ht
  revert ht
  cases c <;> intro ht <;> exact absurd ht (by decide)

lemma lookup_append {α β : Type} [BEq α] (a : α) (l1 l2 : List (α × β)) :
    (l1 ++ l2).lookup a =
      match l1.lookup a with
      | some b => some b
      | none => l2.lookup a := by
  induction l1 with
  | nil => rfl
  | cons p rest ih =>
      rcases p with ⟨k, b⟩
      simp only [List.cons_append, List.lookup]
      cases a == k
      · exact ih
      · rfl

lemma raiseLimit_default (f : RecurrenceField) (hx : f.error_messages_extra = [])
    (c : Collection) (l : Nat) :
    f.raiseLimit (limitKey c) l = defaultLimitError c l := by
  cases c <;>
    · simp only [RecurrenceField.raiseLimit, RecurrenceField.error_messages, hx]
      rfl

lemma raiseFreq_keyError (f : RecurrenceField)
    (hx : (f.error_messages_extra).lookup "invalid_frequency" = none) :
    f.raiseFreq = CleanError.keyError "invalid_frequency" := by
  simp only [RecurrenceField.raiseFreq, RecurrenceField.error_messages]
  rw [lookup_append, hx]
  rfl

lemma raiseLimit_ne_keyError (f : RecurrenceField) (c : Collection) (l : Nat)
    (k : String) :
    f.raiseLimit (limitKey c) l ≠ CleanError.keyError k := by
  unfold RecurrenceField.raiseLimit
  cases hlk : (f.error_messages).lookup (limitKey c) with
  | some t => simp
  | none =>
      exfalso
      rw [RecurrenceField.error_messages, lookup_append] at hlk
      revert hlk
      cases (f.error_messages_extra).lookup (limitKey c) with
      | some b => intro hlk; cases hlk
      | none =>
          intro hlk
          revert hlk
          cases c <;> intro hlk <;> cases hlk

lemma limitChunk_nil (f : RecurrenceField) (m : Recurrence) (c : Collection)
    (h : limitViolated f m c = false) : limitChunk f m c = [] := by
  unfold limitViolated at h
  unfold limitChunk limitOpt
  cases hm : maxOf f c with
  | none => rfl
  | some l =>
      rw [hm] at h
      simp only [decide_eq_false_iff_not] at h
      simp [h]

lemma limitChunk_single (f : RecurrenceField) (m : Recurrence) (c : Collection)
    (l : Nat) (hm : maxOf f c = some l) (hv : l < collectionSize m c) :
    limitChunk f m c = [f.raiseLimit (limitKey c) l] := by
  unfold limitChunk limitOpt
  rw [hm]
  simp [hv]

lemma limitChunk_mem (f : RecurrenceField) (m : Recurrence) (c : Collection)
    (e : CleanError) (he : e ∈ limitChunk f m c) :
    ∃ l, maxOf f c = some l ∧ l < collectionSize m c
      ∧ e = f.raiseLimit (limitKey c) l := by
  unfold limitChunk limitOpt at he
  cases hm : maxOf f c with
  | none => rw [hm] at he; cases he
  | some l =>
      rw [hm] at he
      by_cases hv : l < collectionSize m c
      · simp only [hv, if_true, Option.toList_some, List.mem_singleton] at he
        exact ⟨l, rfl, hv, he⟩
      · simp [hv] at he

lemma freqChunk_mem (f : RecurrenceField) (rs : List Rule) (e : CleanError)
    (he : e ∈ freqChunk f rs) :
    (∃ r ∈ rs, f.frequencies.contains r.freq = false) ∧ e = f.raiseFreq := by
  unfold freqChunk at he
  rcases List.mem_map.mp he with ⟨r, hr, hre⟩
  rcases List.mem_filter.mp hr with ⟨hmem, hp⟩
  refine ⟨⟨r, hmem, ?_⟩, hre.symm⟩
  cases hc : f.frequencies.contains r.freq
  · rfl
  · rw [hc] at hp; cases hp

lemma mem_of_head? {α : Type} {l : List α} {a : α} (h : l.head? = some a) :
    a ∈ l := by
  cases l with
  | nil => cases h
  | cons x xs =>
      injection h with h
      rw [← h]
      exact List.mem_cons_self x xs

lemma mem_violationsList (f : RecurrenceField) (m : Recurrence) (e : CleanError)
    (he : e ∈ violationsList f m) :
    (∃ c l, maxOf f c = some l ∧ l < collectionSize m c
      ∧ e = f.raiseLimit (limitKey c) l)
    ∨ ((∃ r ∈ m.rrules ++ m.exrules, f.frequencies.contains r.freq = false)
        ∧ e = f.raiseFreq) := by
  rw [violationsList_chunks] at he
  simp only [List.mem_append] at he
  rcases he with h | h | h | h | h | h
  · exact Or.inl ⟨_, (limitChunk_mem f m _ e h).imp (fun _ h => h)⟩
  · exact Or.inl ⟨_, (limitChunk_mem f m _ e h).imp (fun _ h => h)⟩
  · exact Or.inl ⟨_, (limitChunk_mem f m _ e h).imp (fun _ h => h)⟩
  · exact Or.inl ⟨_, (limitChunk_mem f m _ e h).imp (fun _ h => h)⟩
  · rcases freqChunk_mem f m.rrules e h with ⟨⟨r, hr, hc⟩, hre⟩
    exact Or.inr ⟨⟨r, List.mem_append.mpr (Or.inl hr), hc⟩, hre⟩
  · rcases freqChunk_mem f m.exrules e h with ⟨⟨r, hr, hc⟩, hre⟩
    exact Or.inr ⟨⟨r, List.mem_append.mpr (Or.inr hr), hc⟩, hre⟩

lemma bool_eq_false {b : Bool} (h : ¬ b = true) : b = false := by
  cases b
  · rfl
  · exact absurd rfl h

lemma limitViolated_elim (f : RecurrenceField) (m : Recurrence) (c : Collection)
    (h : limitViolated f m c = true) :
    ∃ l, maxOf f c = some l ∧ l < collectionSize m c := by
  unfold limitViolated at h
  cases hm : maxOf f c with
  | none => rw [hm] at h; cases h
  | some l =>
      rw [hm] at h
      exact ⟨l, rfl, of_decide_eq_true h⟩

lemma head_violations_of_first (f : RecurrenceField) (m : Recurrence)
    (c : Collection) (l : Nat) (hm : maxOf f c = some l)
    (hv : l < collectionSize m c)
    (hfirst : ∀ c', collOrder c' < collOrder c → limitViolated f m c' = false) :
    (violationsList f m).head? = some (f.raiseLimit (limitKey c) l) := by
  rw [violationsList_chunks]
  cases c with
  | rrules =>
      rw [limitChunk_single f m Collection.rrules l hm hv]
      rfl
  | exrules =>
      rw [limitChunk_nil f m Collection.rrules (hfirst _ (by decide)),
        limitChunk_single f m Collection.exrules l hm hv]
      rfl
  | rdates =>
      rw [limitChunk_nil f m Collection.rrules (hfirst _ (by decide)),
        limitChunk_nil f m Collection.exrules (hfirst _ (by decide)),
        limitChunk_single f m Collection.rdates l hm hv]
      rfl
  | exdates =>
      rw [limitChunk_nil f m Collection.rrules (hfirst _ (by decide)),
        limitChunk_nil f m Collection.exrules (hfirst _ (by decide)),
        limitChunk_nil f m Collection.rdates (hfirst _ (by decide)),
        limitChunk_single f m Collection.exdates l hm hv]
      rfl

lemma exists_first_violation (f : RecurrenceField) (m : Recurrence)
    (c : Collection) (h : limitViolated f m c = true) :
    ∃ c0 l0, collOrder c0 ≤ collOrder c ∧ maxOf f c0 = some l0
      ∧ l0 < collectionSize m c0
      ∧ (violationsList f m).head? = some (f.raiseLimit (limitKey c0) l0) := by
  by_cases h0 : limitViolated f m Collection.rrules = true
  · obtain ⟨l0, hm0, hv0⟩ := limitViolated_elim f m _ h0
    exact ⟨Collection.rrules, l0, Nat.zero_le _, hm0, hv0,
      head_violations_of_first f m _ l0 hm0 hv0
        (fun c' hc' => absurd hc' (Nat.not_lt_zero _))⟩
  · have hr0 := bool_eq_false h0
    by_cases h1 : limitViolated f m Collection.exrules = true
    · obtain ⟨l0, hm0, hv0⟩ := limitViolated_elim f m _ h1
      have hle : collOrder Collection.exrules ≤ collOrder c := by
        cases c with
        | rrules => exact absurd h h0
        | exrules => exact Nat.le_refl _
        | rdates => decide
        | exdates => decide
      refine ⟨Collection.exrules, l0, hle, hm0, hv0,
        head_violations_of_first f m _ l0 hm0 hv0 ?_⟩
      intro c' hc'
      cases c' with
      | rrules => exact hr0
      | exrules => exact absurd hc' (by decide)
      | rdates => exact absurd hc' (by decide)
      | exdates => exact absurd hc' (by decide)
    · have hx0 := bool_eq_false h1
      by_cases h2 : limitViolated f m Collection.rdates = true
      · obtain ⟨l0, hm0, hv0⟩ := limitViolated_elim f m _ h2
        have hle : collOrder Collection.rdates ≤ collOrder c := by
          cases c with
          | rrules => exact absurd h h0
          | exrules => exact absurd h h1
          | rdates => exact Nat.le_refl _
          | exdates => decide
        refine ⟨Collection.rdates, l0, hle, hm0, hv0,
          head_violations_of_first f m _ l0 hm0 hv0 ?_⟩
        intro c' hc'
        cases c' with
        | rrules => exact hr0
        | exrules => exact hx0
        | rdates => exact absurd hc' (by decide)
        | exdates => exact absurd hc' (by decide)
      · have hd0 := bool_eq_false h2
        cases c with
        | rrules => exact absurd h h0
        | exrules => exact absurd h h1
        | rdates => exact absurd h h2
        | exdates =>
            obtain ⟨l0, hm0, hv0⟩ := limitViolated_elim f m _ h
            refine ⟨Collection.exdates, l0, Nat.le_refl _, hm0, hv0,
              head_violations_of_first f m _ l0 hm0 hv0 ?_⟩
            intro c' hc'
            cases c' with
            | rrules => exact hr0
            | exrules => exact hx0
            | rdates => exact hd0
            | exdates => exact absurd hc' (by decide)

lemma applyClears_dtstart (f : RecurrenceField) (m : Recurrence) :
    (applyClears f m).dtstart = if f.accept_dtstart then m.dtstart else none := by
  simp only [applyClears]; split <;> split <;> rfl

lemma applyClears_dtend (f : RecurrenceField) (m : Recurrence) :
    (applyClears f m).dtend = if f.accept_dtend then m.dtend else none := by
  simp only [applyClears]; split <;> split <;> rfl

/-- C2: `clean` performs its checks in a fixed order — the two anchor clears
first (which never fail), then the four collection-limit checks in the order
rrules, exrules, rdates, exdates, then the frequency checks over every rule in
rrules and then every rule in exrules — and the single error returned is the
error of the earliest violated check in that order (`violationsList` lists the
violated checks' errors in exactly that order); when no check is violated the
cleared model is returned. -/
theorem clean_returns_first_violation (f : RecurrenceField) (m : Recurrence) :
    f.clean m =
      match (violationsList f m).head? with
      | some e => Except.error e
      | none => Except.ok (applyClears f m) :=
  clean_spec f m

/-- C5: validation is atomic — for every input, `clean` either returns the
whole model with exactly the two anchor clears applied, or it returns only an
error; there is no third outcome exposing a partially-checked model. -/
theorem clean_atomic (f : RecurrenceField) (m : Recurrence) :
    f.clean m = Except.ok (applyClears f m) ∨ ∃ e, f.clean m = Except.error e := by
  rw [clean_spec]
  cases (violationsList f m).head? with
  | none => exact Or.inl rfl
  | some e => exact Or.inr ⟨e, rfl⟩

/-- C3: when `clean` succeeds, the returned model's `dtstart` is absent
whenever `accept_dtstart` is false (symmetrically for `dtend`), the
non-cleared anchors are unchanged, and the four collections are unchanged
from the parsed input. -/
theorem clean_frame_effect (f : RecurrenceField) (m r : Recurrence)
    (hok : f.clean m = Except.ok r) :
    (f.accept_dtstart = false → r.dtstart = none) ∧
    (f.accept_dtstart = true → r.dtstart = m.dtstart) ∧
    (f.accept_dtend = false → r.dtend = none) ∧
    (f.accept_dtend = true → r.dtend = m.dtend) ∧
    r.rrules = m.rrules ∧ r.exrules = m.exrules ∧
    r.rdates = m.rdates ∧ r.exdates = m.exdates := by
  rw [clean_spec] at hok
  cases hh : (violationsList f m).head? with
  | some e => rw [hh] at hok; cases hok
  | none =>
      rw [hh] at hok
      injection hok with hok
      rw [← hok]
      refine ⟨fun h => ?_, fun h => ?_, fun h => ?_, fun h => ?_,
        applyClears_rrules f m, applyClears_exrules f m,
        applyClears_rdates f m, applyClears_exdates f m⟩
      · rw [applyClears_dtstart, h]; rfl
      · rw [applyClears_dtstart, h]; rfl
      · rw [applyClears_dtend, h]; rfl
      · rw [applyClears_dtend, h]; rfl

/-- Witness for C3 at a concrete input: with `accept_dtstart := false` the
cleared model keeps its collections and loses its `dtstart`. -/
theorem clean_frame_effect_witness :
    ({ accept_dtstart := false } : RecurrenceField).accept_dtstart = false
    ∧ (({ dtstart := some ⟨2024, 1, 1, 9, 0, 0⟩,
          rdates := [⟨2024, 2, 1, 9, 0, 0⟩] } : Recurrence).dtstart).isSome = true
    ∧ (RecurrenceField.clean { accept_dtstart := false }
        { dtstart := some ⟨2024, 1, 1, 9, 0, 0⟩, rdates := [⟨2024, 2, 1, 9, 0, 0⟩] }
        = Except.ok { dtstart := none, rdates := [⟨2024, 2, 1, 9, 0, 0⟩] })
    ∧ (({ dtstart := none, rdates := [⟨2024, 2, 1, 9, 0, 0⟩] } : Recurrence).dtstart = none
        ∧ ({ dtstart := none, rdates := [⟨2024, 2, 1, 9, 0, 0⟩] } : Recurrence).rdates
            = ({ dtstart := some ⟨2024, 1, 1, 9, 0, 0⟩,
                 rdates := [⟨2024, 2, 1, 9, 0, 0⟩] } : Recurrence).rdates) :=
  ⟨rfl, rfl, by decide,
    ⟨(clean_frame_effect { accept_dtstart := false }
        { dtstart := some ⟨2024, 1, 1, 9, 0, 0⟩, rdates := [⟨2024, 2, 1, 9, 0, 0⟩] }
        { dtstart := none, rdates := [⟨2024, 2, 1, 9, 0, 0⟩] } (by decide)).1 rfl,
     (clean_frame_effect { accept_dtstart := false }
        { dtstart := some ⟨2024, 1, 1, 9, 0, 0⟩, rdates := [⟨2024, 2, 1, 9, 0, 0⟩] }
        { dtstart := none, rdates := [⟨2024, 2, 1, 9, 0, 0⟩] } (by decide)).2.2.2.2.2.2.1⟩⟩

/-- C6: a policy max of `None` is unlimited — if a collection's max is not
set, `clean` never fails with that collection's LimitExceeded error (under
the default error messages, the code-level rendering of
`LimitExceeded\x7bcollection c, limit l\x7d` is `defaultLimitError c l`),
whatever the collection's size. -/
theorem clean_max_none_unlimited (f : RecurrenceField) (m : Recurrence)
    (c : Collection) (hx : f.error_messages_extra = [])
    (hm : maxOf f c = none) (l : Nat) :
    f.clean m ≠ Except.error (defaultLimitError c l) := by
  rw [clean_spec]
  cases hh : (violationsList f m).head? with
  | none => intro h; cases h
  | some e =>
      intro h
      injection h with h
      rcases mem_violationsList f m e (mem_of_head? hh) with
        ⟨c', l', hm', hv', he'⟩ | ⟨_, he'⟩
      · by_cases hcc : c' = c
        · subst hcc; rw [hm'] at hm; cases hm
        · rw [raiseLimit_default f hx] at he'
          rw [he'] at h
          exact defaultLimitError_ne c' c l' l hcc h
      · rw [raiseFreq_keyError f (by rw [hx]; rfl)] at he'
        rw [he'] at h
        cases h

/-- Witness for C6 at a concrete input: with no max set on rdates, a model
with two rdates is not rejected with the rdates LimitExceeded error. -/
theorem clean_max_none_unlimited_witness :
    RecurrenceField.clean {}
        { rdates := [⟨2024, 1, 1, 0, 0, 0⟩, ⟨2024, 1, 2, 0, 0, 0⟩] }
      ≠ Except.error (defaultLimitError Collection.rdates 0) :=
  clean_max_none_unlimited {}
    { rdates := [⟨2024, 1, 1, 0, 0, 0⟩, ⟨2024, 1, 2, 0, 0, 0⟩] }
    Collection.rdates rfl rfl 0

/-- C1 counterexample: with max_rrules = 0 and max_exrules = 0 and a model
holding one rrule and one exrule, the exrules collection strictly exceeds its
set max, yet `clean` does not fail with the exrules LimitExceeded error — it
fails with the rrules one, refuting the claimed biconditional as stated. -/
theorem clean_limit_exceeded_iff_cex :
    maxOf { max_rrules := some 0, max_exrules := some 0 } Collection.exrules = some 0
    ∧ 0 < collectionSize
        { rrules := [{ freq := Freq.WEEKLY }], exrules := [{ freq := Freq.WEEKLY }] }
        Collection.exrules
    ∧ RecurrenceField.clean { max_rrules := some 0, max_exrules := some 0 }
        { rrules := [{ freq := Freq.WEEKLY }], exrules := [{ freq := Freq.WEEKLY }] }
      ≠ Except.error (defaultLimitError Collection.exrules 0)
    ∧ RecurrenceField.clean { max_rrules := some 0, max_exrules := some 0 }
        { rrules := [{ freq := Freq.WEEKLY }], exrules := [{ freq := Freq.WEEKLY }] }
      = Except.error (defaultLimitError Collection.rrules 0) := by decide

/-- C1 (amended): for every parsed model and policy (with the field's default
error messages) in which a collection's max is set, `clean` fails with that
collection's LimitExceeded error (carrying that limit) if and only if the
collection's size strictly exceeds the max AND no earlier collection in the
fixed order rrules, exrules, rdates, exdates has its own set max exceeded; a
collection whose size equals its max passes. -/
theorem clean_limit_exceeded_iff (f : RecurrenceField) (m : Recurrence)
    (c : Collection) (l : Nat) (hx : f.error_messages_extra = [])
    (hm : maxOf f c = some l) :
    f.clean m = Except.error (defaultLimitError c l)
      ↔ (l < collectionSize m c
         ∧ ∀ c', collOrder c' < collOrder c → limitViolated f m c' = false) := by
  constructor
  · intro h
    rw [clean_spec] at h
    cases hh : (violationsList f m).head? with
    | none => rw [hh] at h; cases h
    | some e =>
        rw [hh] at h
        injection h with h
        rcases mem_violationsList f m e (mem_of_head? hh) with
          ⟨c', l', hm', hv', he'⟩ | ⟨_, he'⟩
        · by_cases hcc : c' = c
          · subst hcc
            rw [hm'] at hm
            have hl : l' = l := Option.some.inj hm
            rw [hl] at hv' he'
            refine ⟨hv', ?_⟩
            intro c'' hc''
            by_contra hviol
            have hvt : limitViolated f m c'' = true := by
              cases hb : limitViolated f m c''
              · exact absurd hb hviol
              · rfl
            obtain ⟨c0, l0, hle, hm0, hv0, hhead⟩ :=
              exists_first_violation f m c'' hvt
            rw [hh] at hhead
            injection hhead with hhead
            have hne : c0 ≠ c' := by
              intro hceq
              rw [hceq] at hle
              omega
            rw [raiseLimit_default f hx] at hhead
            rw [he', raiseLimit_default f hx] at hhead
            exact defaultLimitError_ne c' c0 l l0 (Ne.symm hne) hhead
          · rw [raiseLimit_default f hx] at he'
            rw [he'] at h
            exact absurd h (defaultLimitError_ne c' c l' l hcc)
        · rw [raiseFreq_keyError f (by rw [hx]; rfl)] at he'
          rw [he'] at h
          cases h
  · rintro ⟨hv, hfirst⟩
    have hhead := head_violations_of_first f m c l hm hv hfirst
    rw [clean_spec, hhead, raiseLimit_default f hx]

/-- Witness for C1 (amended) at the spec's concrete scenario: max_rrules = 2
and a model with 3 rrules fails with the rrules LimitExceeded error carrying
limit 2. -/
theorem clean_limit_exceeded_iff_witness :
    RecurrenceField.clean { max_rrules := some 2 }
        { rrules := [{ freq := Freq.WEEKLY }, { freq := Freq.DAILY },
                     { freq := Freq.MONTHLY }] }
      = Except.error (defaultLimitError Collection.rrules 2) :=
  (clean_limit_exceeded_iff { max_rrules := some 2 }
      { rrules := [{ freq := Freq.WEEKLY }, { freq := Freq.DAILY },
                   { freq := Freq.MONTHLY }] }
      Collection.rrules 2 rfl rfl).mpr (by decide)

/-- C7 counterexample: with max_rrules = 2 and max_exdates = 0 and a model
holding 3 rrules and 1 exdate, the exdates collection (whose max is 0) is
non-empty, yet `clean` fails with no LimitExceeded error carrying limit 0 —
the error it raises is the rrules one carrying limit 2. -/
theorem clean_max_zero_disables_cex :
    maxOf { max_rrules := some 2, max_exdates := some 0 } Collection.exdates = some 0
    ∧ 0 < collectionSize
        { rrules := [{ freq := Freq.WEEKLY }, { freq := Freq.DAILY },
                     { freq := Freq.MONTHLY }],
          exdates := [⟨2024, 1, 3, 9, 0, 0⟩] } Collection.exdates
    ∧ RecurrenceField.clean { max_rrules := some 2, max_exdates := some 0 }
        { rrules := [{ freq := Freq.WEEKLY }, { freq := Freq.DAILY },
                     { freq := Freq.MONTHLY }],
          exdates := [⟨2024, 1, 3, 9, 0, 0⟩] }
      = Except.error (defaultLimitError Collection.rrules 2)
    ∧ RecurrenceField.clean { max_rrules := some 2, max_exdates := some 0 }
        { rrules := [{ freq := Freq.WEEKLY }, { freq := Freq.DAILY },
                     { freq := Freq.MONTHLY }],
          exdates := [⟨2024, 1, 3, 9, 0, 0⟩] }
      ≠ Except.error (defaultLimitError Collection.rrules 0)
    ∧ RecurrenceField.clean { max_rrules := some 2, max_exdates := some 0 }
        { rrules := [{ freq := Freq.WEEKLY }, { freq := Freq.DAILY },
                     { freq := Freq.MONTHLY }],
          exdates := [⟨2024, 1, 3, 9, 0, 0⟩] }
      ≠ Except.error (defaultLimitError Collection.exrules 0)
    ∧ RecurrenceField.clean { max_rrules := some 2, max_exdates := some 0 }
        { rrules := [{ freq := Freq.WEEKLY }, { freq := Freq.DAILY },
                     { freq := Freq.MONTHLY }],
          exdates := [⟨2024, 1, 3, 9, 0, 0⟩] }
      ≠ Except.error (defaultLimitError Collection.rdates 0)
    ∧ RecurrenceField.clean { max_rrules := some 2, max_exdates := some 0 }
        { rrules := [{ freq := Freq.WEEKLY }, { freq := Freq.DAILY },
                     { freq := Freq.MONTHLY }],
          exdates := [⟨2024, 1, 3, 9, 0, 0⟩] }
      ≠ Except.error (defaultLimitError Collection.exdates 0) := by decide

/-- C7 (amended): a policy max of 0 disables the feature — with a
collection's max set to 0 (under the default error messages), every model
containing at least one element in that collection fails `clean` with some
collection's LimitExceeded error; and the error is that collection's
LimitExceeded carrying limit 0 whenever no earlier collection in the fixed
order has its own set max exceeded (in particular whenever that max is the
only one set). -/
theorem clean_max_zero_disables (f : RecurrenceField) (m : Recurrence)
    (c : Collection) (hx : f.error_messages_extra = [])
    (h0 : maxOf f c = some 0) (h1 : 0 < collectionSize m c) :
    (∃ c' l', maxOf f c' = some l'
        ∧ f.clean m = Except.error (defaultLimitError c' l'))
    ∧ ((∀ c', collOrder c' < collOrder c → limitViolated f m c' = false) →
        f.clean m = Except.error (defaultLimitError c 0)) := by
  constructor
  · have hvt : limitViolated f m c = true := by
      unfold limitViolated
      rw [h0]
      exact decide_eq_true h1
    obtain ⟨c0, l0, hle, hm0, hv0, hhead⟩ := exists_first_violation f m c hvt
    refine ⟨c0, l0, hm0, ?_⟩
    rw [clean_spec, hhead, raiseLimit_default f hx]
  · intro hfirst
    have hhead := head_violations_of_first f m c 0 h0 h1 hfirst
    rw [clean_spec, hhead, raiseLimit_default f hx]

/-- Witness for C7 (amended): with only max_exrules = 0 set and a model with
one exrule, `clean` fails with the exrules LimitExceeded error carrying
limit 0. -/
theorem clean_max_zero_disables_witness :
    RecurrenceField.clean { max_exrules := some 0 }
        { exrules := [{ freq := Freq.DAILY }] }
      = Except.error (defaultLimitError Collection.exrules 0) :=
  (clean_max_zero_disables { max_exrules := some 0 }
      { exrules := [{ freq := Freq.DAILY }] }
      Collection.exrules rfl rfl (by decide)).2 (by decide)

/-- C4: evaluating `clean` at the spec's scenario — `frequencies`
restricted to WEEKLY and a model holding one MONTHLY rrule — the code does
not produce a ValidationError carrying the intended "Invalid frequency."
message: the lookup key `invalid_frequency` is absent from the field's
default error messages (which define only the misspelled `invalid_freqency`),
so the raise site fails with a KeyError instead. -/
theorem clean_disallowed_frequency_keyerror :
    RecurrenceField.clean { frequencies := [Freq.WEEKLY] }
        { rrules := [{ freq := Freq.MONTHLY }] }
      = Except.error (CleanError.keyError "invalid_frequency")
    ∧ RecurrenceField.clean { frequencies := [Freq.WEEKLY] }
        { rrules := [{ freq := Freq.MONTHLY }] }
      ≠ Except.error (CleanError.validationError "Invalid frequency.")
    ∧ default_error_messages.lookup "invalid_frequency" = none
    ∧ default_error_messages.lookup "invalid_freqency"
        = some "Invalid frequency." := by decide

/-- C8: with the default `frequencies` (all seven constants) the
disallowed-frequency branch is unreachable, so `clean` never fails with the
frequency error in either of its possible forms — neither the KeyError the
branch actually raises under the default messages, nor a ValidationError
carrying the "Invalid frequency." message — whatever frequencies the model's
rules use. -/
theorem clean_default_frequencies_no_freq_error (f : RecurrenceField)
    (m : Recurrence) (hf : f.frequencies = default_frequencies)
    (hx : f.error_messages_extra = []) :
    f.clean m ≠ Except.error (CleanError.keyError "invalid_frequency")
    ∧ f.clean m ≠ Except.error (CleanError.validationError "Invalid frequency.") := by
  have hmain : ∀ e, (violationsList f m).head? = some e →
      ∃ c' l', e = defaultLimitError c' l' := by
    intro e hh
    rcases mem_violationsList f m e (mem_of_head? hh) with
      ⟨c', l', _, _, he'⟩ | ⟨⟨r, _, hc⟩, _⟩
    · exact ⟨c', l', by rw [he', raiseLimit_default f hx]⟩
    · rw [hf] at hc
      cases hfr : r.freq <;> rw [hfr] at hc <;> exact absurd hc (by decide)
  constructor
  · rw [clean_spec]
    cases hh : (violationsList f m).head? with
    | none => intro h; cases h
    | some e =>
        obtain ⟨c', l', he⟩ := hmain e hh
        intro h
        injection h with h
        rw [he] at h
        cases h
  · rw [clean_spec]
    cases hh : (violationsList f m).head? with
    | none => intro h; cases h
    | some e =>
        obtain ⟨c', l', he⟩ := hmain e hh
        intro h
        injection h with h
        rw [he] at h
        injection h with h
        exact substLimit_ne_invalid c' l' h

/-- Witness for C8 at a concrete input: a default-constructed field does not
reject a model whose rule uses SECONDLY with the frequency KeyError. -/
theorem clean_default_frequencies_no_freq_error_witness :
    RecurrenceField.clean {} { rrules := [{ freq := Freq.SECONDLY }] }
      ≠ Except.error (CleanError.keyError "invalid_frequency") :=
  (clean_default_frequencies_no_freq_error {}
      { rrules := [{ freq := Freq.SECONDLY }] } rfl rfl).1

/-- C10 counterexample: a field without a caller-supplied
`invalid_frequency` message but with max_rrules = 0, on a model whose single
rrule has a non-whitelisted frequency, fails with a ValidationError (the
limit check preempts the frequency branch), not with a key-lookup error —
refuting the claim's universal quantification over fields and models. -/
theorem clean_invalid_frequency_key_missing_cex :
    ({ frequencies := [Freq.WEEKLY], max_rrules := some 0 }
        : RecurrenceField).error_messages_extra.lookup "invalid_frequency" = none
    ∧ (({ rrules := [{ freq := Freq.MONTHLY }] } : Recurrence).rrules.any
        (fun r => !({ frequencies := [Freq.WEEKLY], max_rrules := some 0 }
          : RecurrenceField).frequencies.contains r.freq)) = true
    ∧ RecurrenceField.clean { frequencies := [Freq.WEEKLY], max_rrules := some 0 }
        { rrules := [{ freq := Freq.MONTHLY }] }
      = Except.error (defaultLimitError Collection.rrules 0)
    ∧ RecurrenceField.clean { frequencies := [Freq.WEEKLY], max_rrules := some 0 }
        { rrules := [{ freq := Freq.MONTHLY }] }
      ≠ Except.error (CleanError.keyError "invalid_frequency") := by decide

/-- C10 (amended): for every field constructed without a caller-supplied
`invalid_frequency` error message, whenever the four collection-limit checks
all pass and the model contains a rule (in rrules or exrules) whose frequency
is not whitelisted, `clean` fails with the Python KeyError from the
`invalid_frequency` lookup — the intended ValidationError carrying
"Invalid frequency." is unreachable because the defaults define only the
misspelled key `invalid_freqency`. -/
theorem clean_invalid_frequency_key_missing (f : RecurrenceField)
    (m : Recurrence)
    (hx : (f.error_messages_extra).lookup "invalid_frequency" = none)
    (hl : ∀ c, limitViolated f m c = false)
    (hbad : ∃ r ∈ m.rrules ++ m.exrules, f.frequencies.contains r.freq = false) :
    f.clean m = Except.error (CleanError.keyError "invalid_frequency") := by
  rw [clean_spec, violationsList_chunks,
    limitChunk_nil f m _ (hl _), limitChunk_nil f m _ (hl _),
    limitChunk_nil f m _ (hl _), limitChunk_nil f m _ (hl _)]
  simp only [List.nil_append]
  obtain ⟨r, hr, hc⟩ := hbad
  have hne : f.raiseFreq ∈ freqChunk f m.rrules ++ freqChunk f m.exrules := by
    have hmem : ∀ rs : List Rule, r ∈ rs → f.raiseFreq ∈ freqChunk f rs := by
      intro rs hrs
      unfold freqChunk
      exact List.mem_map.mpr
        ⟨r, List.mem_filter.mpr ⟨hrs, by rw [hc]; rfl⟩, rfl⟩
    rcases List.mem_append.mp hr with hr | hr
    · exact List.mem_append.mpr (Or.inl (hmem m.rrules hr))
    · exact List.mem_append.mpr (Or.inr (hmem m.exrules hr))
  cases hcl : freqChunk f m.rrules ++ freqChunk f m.exrules with
  | nil => rw [hcl] at hne; cases hne
  | cons e rest =>
      have hee : e = f.raiseFreq := by
        have hmem : e ∈ freqChunk f m.rrules ++ freqChunk f m.exrules := by
          rw [hcl]
          exact List.mem_cons_self e rest
        rcases List.mem_append.mp hmem with hmem | hmem
        · exact (freqChunk_mem f m.rrules e hmem).2
        · exact (freqChunk_mem f m.exrules e hmem).2
      rw [hee, raiseFreq_keyError f hx]
      rfl

/-- Witness for C10 (amended): with frequencies restricted to WEEKLY, no
limits set, and a MONTHLY rrule, `clean` fails with the KeyError. -/
theorem clean_invalid_frequency_key_missing_witness :
    RecurrenceField.clean { frequencies := [Freq.WEEKLY] }
        { rrules := [{ freq := Freq.MONTHLY }] }
      = Except.error (CleanError.keyError "invalid_frequency") :=
  clean_invalid_frequency_key_missing { frequencies := [Freq.WEEKLY] }
    { rrules := [{ freq := Freq.MONTHLY }] } rfl (by decide) (by decide)

lemma parseRule_serializeRule (r : Rule) (h : RuleValid r = true) :
    parseRule (serializeRule r) = Except.ok r := by
  obtain ⟨x, i, c, u, bm, bmd, bd, bsp⟩ := r
  simp only [RuleValid, Bool.and_eq_true] at h
  obtain ⟨h1, h2, h3, h4, h5, h6⟩ := h
  by_cases hi : i = 1 <;>
    rcases c with _ | cv <;> rcases u with _ | uv <;>
    rcases bm with _ | bmv <;> rcases bmd with _ | bmdv <;>
    rcases bd with _ | bdv <;> rcases bsp with _ | bspv <;>
    simp_all [parseRule, serializeRule, parsePairs, ruleStep, finishRule,
      optPair, filterOk]

lemma parseLines_append (xs ys : List Line) :
    ∀ acc, parseLines acc (xs ++ ys) =
      match parseLines acc xs with
      | Except.ok a => parseLines a ys
      | Except.error e => Except.error e := by
  induction xs with
  | nil => intro acc; rfl
  | cons x rest ih =>
      intro acc
      cases x with
      | DTSTART t => exact ih _
      | DTEND t => exact ih _
      | RRULE body =>
          simp only [List.cons_append, parseLines]
          cases hp : parseRule body with
          | ok r => simp only [hp]; exact ih _
          | error e => simp only [hp]
      | EXRULE body =>
          simp only [List.cons_append, parseLines]
          cases hp : parseRule body with
          | ok r => simp only [hp]; exact ih _
          | error e => simp only [hp]
      | RDATE ts => exact ih _
      | EXDATE ts => exact ih _
      | UNKNOWN s => rfl

lemma parseLines_append_ok (xs ys : List Line) (acc a : Recurrence)
    (hx : parseLines acc xs = Except.ok a) :
    parseLines acc (xs ++ ys) = parseLines a ys := by
  rw [parseLines_append xs ys acc, hx]

lemma parseLines_rrules (rs : List Rule) (h : rs.all RuleValid = true) :
    ∀ acc, parseLines acc (rs.map (fun r => Line.RRULE (serializeRule r)))
      = Except.ok { acc with rrules := acc.rrules ++ rs } := by
  induction rs with
  | nil =>
      intro acc
      rw [List.append_nil]
      rfl
  | cons r rest ih =>
      intro acc
      have hh := h
      rw [List.all_cons, Bool.and_eq_true] at hh
      obtain ⟨hr1, hr2⟩ := hh
      simp only [List.map_cons, parseLines, parseRule_serializeRule r hr1]
      rw [ih hr2]
      simp [List.append_assoc]

lemma parseLines_exrules (rs : List Rule) (h : rs.all RuleValid = true) :
    ∀ acc, parseLines acc (rs.map (fun r => Line.EXRULE (serializeRule r)))
      = Except.ok { acc with exrules := acc.exrules ++ rs } := by
  induction rs with
  | nil =>
      intro acc
      rw [List.append_nil]
      rfl
  | cons r rest ih =>
      intro acc
      have hh := h
      rw [List.all_cons, Bool.and_eq_true] at hh
      obtain ⟨hr1, hr2⟩ := hh
      simp only [List.map_cons, parseLines, parseRule_serializeRule r hr1]
      rw [ih hr2]
      simp [List.append_assoc]

lemma parseLines_optDtstart (o : Option Timestamp) (ys : List Line) :
    parseLines {} (optLine Line.DTSTART o ++ ys)
      = parseLines { dtstart := o } ys := by
  cases o <;> rfl

lemma parseLines_optDtend (ds o : Option Timestamp) (ys : List Line) :
    parseLines { dtstart := ds } (optLine Line.DTEND o ++ ys)
      = parseLines { dtstart := ds, dtend := o } ys := by
  cases o <;> rfl

/-- C9: round-trip law — for every structurally valid model, parsing its
serialization returns exactly the model (field-wise equality; since the date
collections come back as the same lists, they are in particular set-equal). -/
theorem parse_serialize_roundtrip (m : Recurrence) (h : ModelValid m = true) :
    parse (serialize m) = Except.ok m := by
  obtain ⟨ds, de, rr, xr, rd, xd⟩ := m
  have hall : (rr ++ xr).all RuleValid = true := h
  rw [List.all_append, Bool.and_eq_true] at hall
  obtain ⟨h1, h2⟩ := hall
  show parseLines {}
      (optLine Line.DTSTART ds
        ++ (optLine Line.DTEND de
        ++ (rr.map (fun r => Line.RRULE (serializeRule r))
        ++ (xr.map (fun r => Line.EXRULE (serializeRule r))
        ++ ((if rd = ([] : List Timestamp) then [] else [Line.RDATE rd])
        ++ (if xd = ([] : List Timestamp) then [] else [Line.EXDATE xd]))))))
      = Except.ok (Recurrence.mk ds de rr xr rd xd)
  rw [parseLines_optDtstart, parseLines_optDtend]
  rw [parseLines_append_ok _ _ _ _
    (parseLines_rrules rr h1 { dtstart := ds, dtend := de })]
  rw [parseLines_append_ok _ _ _ _
    (parseLines_exrules xr h2
      { { dtstart := ds, dtend := de : Recurrence } with
        rrules := ({ dtstart := ds, dtend := de : Recurrence }).rrules ++ rr })]
  by_cases hrd : rd = [] <;> by_cases hxd : xd = [] <;>
    simp [hrd, hxd, parseLines]

/-- Witness for C9 at a concrete model (the spec's DAILY COUNT=3 scenario
plus an exdate): it is structurally valid and round-trips exactly. -/
theorem parse_serialize_roundtrip_witness :
    ModelValid
      { dtstart := some ⟨2024, 1, 1, 9, 0, 0⟩,
        rrules := [{ freq := Freq.DAILY, count := some 3 }],
        exdates := [⟨2024, 1, 3, 9, 0, 0⟩] } = true
    ∧ parse (serialize
      { dtstart := some ⟨2024, 1, 1, 9, 0, 0⟩,
        rrules := [{ freq := Freq.DAILY, count := some 3 }],
        exdates := [⟨2024, 1, 3, 9, 0, 0⟩] })
      = Except.ok
      { dtstart := some ⟨2024, 1, 1, 9, 0, 0⟩,
        rrules := [{ freq := Freq.DAILY, count := some 3 }],
        exdates := [⟨2024, 1, 3, 9, 0, 0⟩] } :=
  ⟨by decide, parse_serialize_roundtrip
    { dtstart := some ⟨2024, 1, 1, 9, 0, 0⟩,
      rrules := [{ freq := Freq.DAILY, count := some 3 }],
      exdates := [⟨2024, 1, 3, 9, 0, 0⟩] } (by decide)⟩

example : (RecurrenceField.clean {} {}) = Except.ok {} := by decide

example :
    RecurrenceField.clean { max_rrules := some 0 }
      { rrules := [{ freq := Freq.WEEKLY }] }
      = Except.error (defaultLimitError Collection.rrules 0) := by decide

example :
    RecurrenceField.clean { frequencies := [Freq.WEEKLY] }
      { rrules := [{ freq := Freq.MONTHLY }] }
      = Except.error (CleanError.keyError "invalid_frequency") := by decide

example : substLimit "Max rules exceeded. The limit is %(limit)s" 2
    = "Max rules exceeded. The limit is 2" := by decide

example :
    RecurrenceField.clean { max_rrules := some 1 } { rrules := [{ freq := Freq.WEEKLY }] }
      = Except.ok { rrules := [{ freq := Freq.WEEKLY }] } := by decide

example : parse [Line.UNKNOWN "X-FOO"]
    = Except.error (FormatError.unknownDirective "X-FOO") := by decide

example :
    parseRule [(RuleKey.FREQ, RVal.vfreq Freq.DAILY), (RuleKey.COUNT, RVal.vnat 3),
      (RuleKey.UNTIL, RVal.vtime ⟨2024, 1, 1, 0, 0, 0⟩)]
      = Except.error FormatError.bothCountAndUntil := by decide

end Recur
